import Mathlib

/-!
Verification development for the diamonds-base RPC deployment scripts.

The TypeScript sources embedded here are:
* `scripts/deploy/rpc/deploy-rpc.ts`   (option validation, config creation, deploy flow)
* `scripts/deploy/rpc/upgrade-rpc.ts`  (option validation, upgrade decision flow)
* `scripts/deploy/rpc/status-rpc.ts`   (option validation, effective-config display)
* `scripts/deploy/rpc/verify-rpc.ts`   (verification step gating)
* `scripts/utils/verify-diamond.ts`    (`VerifyContracts`)

The Selector Registry / Facet Reconciler / RPC Resilience Layer live in the
`RPCDiamondDeployer` core, which is not among the visible sources; those
components are modelled from the specification (each such definition says so
in its doc comment).
-/

namespace Diamonds

/-- JavaScript truthiness of an optional string: `undefined` and the empty
string are falsy, every other string is truthy. -/
def strTruthy : Option String → Bool
  | none => false
  | some s => s ≠ ""

/-- JavaScript truthiness of an optional number (restricted to naturals):
`undefined` and `0` are falsy. -/
def natTruthy : Option Nat → Bool
  | none => false
  | some n => n ≠ 0

/-- JavaScript truthiness of an optional rational number: `undefined` and `0`
are falsy. -/
def ratTruthy : Option ℚ → Bool
  | none => false
  | some q => q ≠ 0

/-- JavaScript `a || b` on optional strings: yields `a` when truthy,
otherwise `b`. -/
def orTruthy (a b : Option String) : Option String :=
  if strTruthy a then a else b

/-- Environment variables read by the scripts (`process.env`). -/
structure Env where
  PRIVATE_KEY : Option String
  TEST_PRIVATE_KEY : Option String
  RPC_URL : Option String
  GAS_LIMIT_MULTIPLIER : Option String
  MAX_RETRIES : Option String
  RETRY_DELAY_MS : Option String

/-- Options of `deploy-rpc.ts` (interface `DeploymentOptions`); string fields
that the CLI defaults to `''` are plain strings, optional fields are
`Option`. -/
structure DeploymentOptions where
  diamondName : String
  networkName : String
  privateKey : Option String
  gasLimitMultiplier : Option ℚ
  maxRetries : Option Nat
  retryDelayMs : Option Nat
  useHardhatConfig : Option Bool
  rpcUrl : Option String

/-- Error messages pushed by `validateOptions` in `deploy-rpc.ts`. -/
def deployMsgDiamondName : String :=
  "Diamond name is required (--diamond-name or first argument)"

def deployMsgNetworkName : String :=
  "Network name is required (--network-name or second argument)"

def msgPrivateKey : String :=
  "Private key is required (--private-key, PRIVATE_KEY, or TEST_PRIVATE_KEY environment variable)"

def msgRpcUrlLegacy : String :=
  "RPC URL is required when hardhat config is disabled (--rpc-url or RPC_URL environment variable)"

/-- Embedding of `validateOptions` from `deploy-rpc.ts`: every failed check
pushes its message onto the `errors` array; the caller exits iff the array is
non-empty. -/
def deployValidateOptions (o : DeploymentOptions) (env : Env) : List String :=
  let errors : List String := []
  let errors := if !strTruthy (some o.diamondName) then errors ++ [deployMsgDiamondName] else errors
  let errors := if !strTruthy (some o.networkName) then errors ++ [deployMsgNetworkName] else errors
  let errors := if !strTruthy o.privateKey && !strTruthy env.PRIVATE_KEY && !strTruthy env.TEST_PRIVATE_KEY
    then errors ++ [msgPrivateKey] else errors
  let errors := if o.useHardhatConfig = some false then
      (if !strTruthy o.rpcUrl && !strTruthy env.RPC_URL then errors ++ [msgRpcUrlLegacy] else errors)
    else errors
  errors

/-- Options of `upgrade-rpc.ts` (interface `UpgradeOptions`). -/
structure UpgradeOptions where
  diamondName : String
  networkName : String
  privateKey : Option String
  gasLimitMultiplier : Option ℚ
  maxRetries : Option Nat
  retryDelayMs : Option Nat
  useHardhatConfig : Option Bool
  rpcUrl : Option String
  force : Bool
  dryRun : Bool

def upgradeMsgDiamondName : String :=
  "Diamond name is required (--diamond-name or DIAMOND_NAME)"

def upgradeMsgNetworkName : String :=
  "Network name is required (--network-name or NETWORK_NAME)"

/-- Embedding of `validateOptions` from `upgrade-rpc.ts`: identical structure
to the deploy variant, with its own first two messages. -/
def upgradeValidateOptions (o : UpgradeOptions) (env : Env) : List String :=
  let errors : List String := []
  let errors := if !strTruthy (some o.diamondName) then errors ++ [upgradeMsgDiamondName] else errors
  let errors := if !strTruthy (some o.networkName) then errors ++ [upgradeMsgNetworkName] else errors
  let errors := if !strTruthy o.privateKey && !strTruthy env.PRIVATE_KEY && !strTruthy env.TEST_PRIVATE_KEY
    then errors ++ [msgPrivateKey] else errors
  let errors := if o.useHardhatConfig = some false then
      (if !strTruthy o.rpcUrl && !strTruthy env.RPC_URL then errors ++ [msgRpcUrlLegacy] else errors)
    else errors
  errors

/-- Options of `status-rpc.ts` (interface `StatusOptions`). -/
structure StatusOptions where
  diamondName : String
  networkName : Option String
  rpcUrl : Option String
  privateKey : Option String
  showConfig : Bool

def statusMsgDiamondName : String :=
  "Diamond name is required (--diamond-name or DIAMOND_NAME)"

def statusMsgRpcUrl : String :=
  "RPC URL is required (--rpc-url or RPC_URL)"

def statusMsgPrivateKey : String :=
  "Private key is required (--private-key or PRIVATE_KEY)"

/-- Embedding of `validateOptions` from `status-rpc.ts`: checks diamond name,
RPC URL and private key, each failed check appending its message. -/
def statusValidateOptions (o : StatusOptions) : List String :=
  let errors : List String := []
  let errors := if !strTruthy (some o.diamondName) then errors ++ [statusMsgDiamondName] else errors
  let errors := if !strTruthy o.rpcUrl then errors ++ [statusMsgRpcUrl] else errors
  let errors := if !strTruthy o.privateKey then errors ++ [statusMsgPrivateKey] else errors
  errors

/-- Configuration record produced by `createConfig` (interface
`RPCDiamondDeployerConfig`); `rpcUrl` is optional because the legacy path
computes `options.rpcUrl || process.env.RPC_URL!`, which can be
`undefined`. -/
structure RPCDiamondDeployerConfig where
  diamondName : String
  rpcUrl : Option String
  privateKey : Option String
  networkName : String
  chainId : Nat
  gasLimitMultiplier : Option ℚ
  maxRetries : Option Nat
  retryDelayMs : Option Nat
  deriving DecidableEq, Repr

/-- Embedding of `createConfig` from `deploy-rpc.ts`. The hardhat loader
`RPCDiamondDeployer.createConfigFromHardhat` is external; its outcome is the
parameter `hardhatConfig` (`none` models the loader throwing, in which case
the `catch` falls through to the legacy configuration). -/
def createConfigDeploy (hardhatConfig : Option RPCDiamondDeployerConfig)
    (o : DeploymentOptions) (env : Env) : RPCDiamondDeployerConfig :=
  let privateKey := orTruthy o.privateKey (orTruthy env.PRIVATE_KEY env.TEST_PRIVATE_KEY)
  let legacy : RPCDiamondDeployerConfig :=
    { diamondName := o.diamondName
      rpcUrl := orTruthy o.rpcUrl env.RPC_URL
      privateKey := privateKey
      networkName := o.networkName
      chainId := 0
      gasLimitMultiplier := o.gasLimitMultiplier
      maxRetries := o.maxRetries
      retryDelayMs := o.retryDelayMs }
  if o.useHardhatConfig ≠ some false ∧ strTruthy o.rpcUrl = false then
    match hardhatConfig with
    | some cfg => cfg
    | none => legacy
  else legacy

/-- Per-facet record inside the persisted deployed-diamond data. -/
structure DeployedFacetData where
  address : Option String
  funcSelectors : List String
  deriving DecidableEq, Repr

/-- Persisted deployed-diamond data (`getDeployedDiamondData`). -/
structure DeployedDiamondData where
  DiamondAddress : Option String
  DeployerAddress : Option String
  protocolVersion : Option Nat
  DeployedFacets : List (String × DeployedFacetData)
  deriving DecidableEq, Repr

/-- Target deploy configuration (`getDeployConfig`): the piece the upgrade
decision reads. -/
structure DeployConfig where
  protocolVersion : Option Nat
  facetNames : List String
  deriving DecidableEq, Repr

/-- State of an `RPCDiamondDeployer` instance as observed by the scripts:
whether the diamond is deployed, the persisted data, and the result of
`validateConfiguration`. -/
structure DeployerState where
  isDiamondDeployed : Bool
  deployedData : DeployedDiamondData
  configValid : Bool
  configErrors : List String
  deriving DecidableEq, Repr

/-- Outcome of one run of `deployDiamond` in `deploy-rpc.ts`. -/
inductive DeployOutcome where
  | validationExit (errors : List String)
  | configInvalidExit (errors : List String)
  | alreadyDeployed (address : Option String) (reportedVersion : Option Nat)
  | deployed (data : DeployedDiamondData)
  deriving DecidableEq, Repr

/-- Result of one run of `deployDiamond`: outcome, final deployer state, and
the configuration in use when the run got past option validation. -/
structure DeployRunResult where
  outcome : DeployOutcome
  finalState : DeployerState
  usedConfig : Option RPCDiamondDeployerConfig
  deriving DecidableEq, Repr

/-- Embedding of `deployDiamond` from `deploy-rpc.ts`. Network effects of an
actual deployment are abstracted by `performDeploy`; `reportedVersion`
records what the already-deployed branch prints (the protocol-version line is
printed only when `deployedData.protocolVersion` is truthy). -/
def deployDiamondRun (performDeploy : DeployerState → DeployerState)
    (hardhatConfig : Option RPCDiamondDeployerConfig)
    (o : DeploymentOptions) (env : Env) (st : DeployerState) : DeployRunResult :=
  let errors := deployValidateOptions o env
  if errors ≠ [] then
    { outcome := .validationExit errors, finalState := st, usedConfig := none }
  else
    let config := createConfigDeploy hardhatConfig o env
    if !st.configValid then
      { outcome := .configInvalidExit st.configErrors, finalState := st, usedConfig := some config }
    else if st.isDiamondDeployed then
      { outcome := .alreadyDeployed st.deployedData.DiamondAddress
          (if natTruthy st.deployedData.protocolVersion then st.deployedData.protocolVersion else none)
        finalState := st
        usedConfig := some config }
    else
      let st' := performDeploy st
      { outcome := .deployed st'.deployedData, finalState := st', usedConfig := some config }

/-- Outcome of one run of `upgradeDiamond` in `upgrade-rpc.ts`. -/
inductive UpgradeOutcome where
  | validationExit (errors : List String)
  | notDeployedExit
  | configInvalidExit (errors : List String)
  | noUpgradeNeeded
  | dryRunPreview
  | upgraded
  deriving DecidableEq, Repr

/-- Embedding of the `needsUpgrade` expression of `upgradeDiamond`:
`options.force || (deployedData.protocolVersion && currentConfig.protocolVersion
&& deployedData.protocolVersion < currentConfig.protocolVersion)` under
JavaScript truthiness. -/
def upgradeNeedsUpgrade (o : UpgradeOptions) (deployed target : Option Nat) : Bool :=
  o.force || (natTruthy deployed && natTruthy target && decide (deployed.getD 0 < target.getD 0))

/-- Embedding of `upgradeDiamond` from `upgrade-rpc.ts`: option validation,
deployment check, configuration validation, then the upgrade decision; the
actual cut submission (`deployer.deployDiamond()`) is reached only in the
`upgraded` outcome. -/
def upgradeDiamondRun (o : UpgradeOptions) (env : Env) (st : DeployerState)
    (target : DeployConfig) : UpgradeOutcome :=
  let errors := upgradeValidateOptions o env
  if errors ≠ [] then .validationExit errors
  else if !st.isDiamondDeployed then .notDeployedExit
  else if !st.configValid then .configInvalidExit st.configErrors
  else
    let needsUpgrade := upgradeNeedsUpgrade o st.deployedData.protocolVersion target.protocolVersion
    if !needsUpgrade && !o.force then .noUpgradeNeeded
    else if o.dryRun then .dryRunPreview
    else .upgraded

/-- Outcome of one run of `checkStatus` in `status-rpc.ts`, reduced to
whether option validation let any status work happen. -/
inductive StatusOutcome where
  | validationExit (errors : List String)
  | completed
  deriving DecidableEq, Repr

/-- Embedding of the validation gate of `checkStatus` from `status-rpc.ts`:
`validateOptions` exits the process before any status work when it collected
any error. -/
def checkStatusRun (o : StatusOptions) : StatusOutcome :=
  let errors := statusValidateOptions o
  if errors ≠ [] then .validationExit errors else .completed

/-- JavaScript `a || b` where `a` is an optional string and `b` a string
literal, as in `process.env.MAX_RETRIES || '3'`. -/
def jsOrStr (a : Option String) (b : String) : String :=
  match a with
  | some s => if s ≠ "" then s else b
  | none => b

/-- Numeric value of a digit list, most significant first. -/
def natOfDigits (cs : List Char) : Nat :=
  cs.foldl (fun a c => a * 10 + (c.toNat - 48)) 0

/-- Leading-decimal-digits fragment of JavaScript `parseInt` (base 10),
sufficient for the numeric strings the scripts parse; `none` models `NaN`. -/
def parseIntJS (s : String) : Option Nat :=
  let ds := s.toList.takeWhile Char.isDigit
  if ds = [] then none else some (natOfDigits ds)

/-- Leading-decimal fragment of JavaScript `parseFloat` (digits, optional
point, digits), sufficient for the numeric strings the scripts parse; `none`
models `NaN`. -/
def parseFloatJS (s : String) : Option ℚ :=
  let cs := s.toList
  let intPart := cs.takeWhile Char.isDigit
  let rest := cs.dropWhile Char.isDigit
  if intPart = [] then none
  else
    match rest with
    | '.' :: fracRest =>
      let fracPart := fracRest.takeWhile Char.isDigit
      some ((natOfDigits intPart : ℚ) + (natOfDigits fracPart : ℚ) / ((10 : ℚ) ^ fracPart.length))
    | _ => some ((natOfDigits intPart : ℚ))

/-- Default value of the `--gas-limit-multiplier` option in the `deploy`,
`upgrade` and legacy commands: `parseFloat(process.env.GAS_LIMIT_MULTIPLIER || '1.2')`. -/
def cliGasLimitMultiplierDefault (env : Env) : Option ℚ :=
  parseFloatJS (jsOrStr env.GAS_LIMIT_MULTIPLIER "1.2")

/-- Default value of the `--max-retries` option:
`parseInt(process.env.MAX_RETRIES || '3')`. -/
def cliMaxRetriesDefault (env : Env) : Option Nat :=
  parseIntJS (jsOrStr env.MAX_RETRIES "3")

/-- Default value of the `--retry-delay-ms` option:
`parseInt(process.env.RETRY_DELAY_MS || '2000')`. -/
def cliRetryDelayMsDefault (env : Env) : Option Nat :=
  parseIntJS (jsOrStr env.RETRY_DELAY_MS "2000")

/-- Gas-limit multiplier printed by `showConfiguration` in `status-rpc.ts`:
`config.gasLimitMultiplier || 1.2`. -/
def displayedGasLimitMultiplier (c : RPCDiamondDeployerConfig) : ℚ :=
  if ratTruthy c.gasLimitMultiplier then c.gasLimitMultiplier.getD 0 else 1.2

/-- Max-retries value printed by `showConfiguration`: `config.maxRetries || 3`. -/
def displayedMaxRetries (c : RPCDiamondDeployerConfig) : Nat :=
  if natTruthy c.maxRetries then c.maxRetries.getD 0 else 3

/-- Retry-delay value printed by `showConfiguration`: `config.retryDelayMs || 2000`. -/
def displayedRetryDelayMs (c : RPCDiamondDeployerConfig) : Nat :=
  if natTruthy c.retryDelayMs then c.retryDelayMs.getD 0 else 2000

/-- Verification-related flags of `verify-rpc.ts` (`VerifyOptions`),
`undefined` conflated with `false` as JavaScript truthiness does. -/
structure VerifyStepFlags where
  verifyContracts : Bool
  validateAbi : Bool
  validateSelectors : Bool
  compareOnChain : Bool
  deriving DecidableEq, Repr

/-- Condition under which `verifyDeployment` runs `validateABIs`:
`options.validateAbi || !options.verifyContracts && !options.validateSelectors && !options.compareOnChain`. -/
def runsValidateAbi (f : VerifyStepFlags) : Bool :=
  f.validateAbi || (!f.verifyContracts && !f.validateSelectors && !f.compareOnChain)

/-- Condition under which `verifyDeployment` runs `validateSelectors`. -/
def runsValidateSelectors (f : VerifyStepFlags) : Bool :=
  f.validateSelectors || (!f.verifyContracts && !f.validateAbi && !f.compareOnChain)

/-- Condition under which `verifyDeployment` runs `compareOnChainState`. -/
def runsCompareOnChain (f : VerifyStepFlags) : Bool :=
  f.compareOnChain || (!f.verifyContracts && !f.validateAbi && !f.validateSelectors)

/-- Condition under which `verifyDeployment` runs `showContractVerificationInfo`. -/
def runsShowContractVerificationInfo (f : VerifyStepFlags) : Bool :=
  f.verifyContracts

/-- Per-facet entry of `INetworkDeployInfo.FacetDeployedInfo` as used by
`verify-diamond.ts`. -/
structure FacetInfo where
  address : String
  verified : Bool
  deriving DecidableEq, Repr

/-- Deployment info consumed by `VerifyContracts` (`INetworkDeployInfo`). -/
structure NetworkDeployInfo where
  DiamondAddress : String
  DeployerAddress : String
  FacetDeployedInfo : List (String × FacetInfo)
  deriving DecidableEq, Repr

/-- Result of `VerifyContracts`: which verification jobs were submitted to
`hre.run('verify:verify', ...)` and the mutated facet table. -/
structure VerifyContractsResult where
  diamondSubmitted : Bool
  facetsSubmitted : List String
  FacetDeployedInfo : List (String × FacetInfo)
  deriving DecidableEq, Repr

/-- Embedding of `VerifyContracts` from `verify-diamond.ts`: the diamond
itself is submitted when `FacetDeployedInfo['DiamondCutFacet']?.verified` is
falsy; every facet whose `verified` flag is false is submitted and its flag
set to `true`; already-verified facets are skipped. -/
def VerifyContracts (info : NetworkDeployInfo) : VerifyContractsResult :=
  let diamondSubmitted :=
    !(((info.FacetDeployedInfo.lookup "DiamondCutFacet").map (·.verified)).getD false)
  let facetsSubmitted := (info.FacetDeployedInfo.filter (fun p => !p.2.verified)).map (·.1)
  let updated := info.FacetDeployedInfo.map
    (fun p => if p.2.verified then p else (p.1, { p.2 with verified := true }))
  { diamondSubmitted := diamondSubmitted
    facetsSubmitted := facetsSubmitted
    FacetDeployedInfo := updated }

/-- Failure classes distinguished by the RPC Resilience Layer. Modelled from
the spec: the layer distinguishes retriable failures (nonce races, transient
RPC timeouts, underpriced-gas rejections) from fatal ones (insufficient
balance, reverted execution, malformed call data). The layer itself lives in
the `RPCDiamondDeployer` core, which is not among the visible sources. -/
inductive RpcFailure where
  | retriable (msg : String)
  | fatal (msg : String)
  deriving DecidableEq, Repr

/-- Result of one underlying RPC attempt. -/
inductive CallResult (α : Type) where
  | ok (value : α)
  | err (e : RpcFailure)
  deriving DecidableEq, Repr

/-- Error surfaced by the Resilience Layer. Modelled from the spec: a
`TransactionError` carries whether retries were exhausted on a retriable
failure or a fatal failure propagated at once. -/
inductive TransactionError where
  | retriesExhausted (msg : String)
  | fatalError (msg : String)
  deriving DecidableEq, Repr

/-- Modelled from the spec (§4.4 RPC Resilience Layer, absent from the
visible sources): attempts are numbered from `attempt`; a successful call or
a fatal failure ends the loop at once, a retriable failure is retried while
the attempt count is below `maxRetries` and surfaces a `TransactionError`
once retries are exhausted. Returns the number of the last attempt made
together with the result. -/
def retryLoop {α : Type} (call : Nat → CallResult α) (maxRetries attempt : Nat) :
    Nat × Except TransactionError α :=
  match call attempt with
  | .ok v => (attempt, .ok v)
  | .err (.fatal m) => (attempt, .error (.fatalError m))
  | .err (.retriable m) =>
    if h : attempt < maxRetries then retryLoop call maxRetries (attempt + 1)
    else (attempt, .error (.retriesExhausted m))
termination_by maxRetries - attempt
decreasing_by omega

/-- Modelled from the spec: a network call wrapped with bounded retry,
starting at attempt 1. -/
def withRetry {α : Type} (call : Nat → CallResult α) (maxRetries : Nat) :
    Nat × Except TransactionError α :=
  retryLoop call maxRetries 1

/-- Target facet configuration entry. Modelled from the spec (§4.2 input:
ordered sequence of facet name, selector set and priority, plus the address
the facet is deployed at); the Reconciler itself is absent from the visible
sources. Selectors and addresses are naturals standing for 4-byte selectors
and 20-byte addresses. -/
structure FacetConfig where
  name : String
  address : Nat
  selectors : List Nat
  priority : Nat
  deriving DecidableEq, Repr

/-- Modelled from the spec (§4.1): conflict resolution between the current
registry entry and a newly registered claimant; the newcomer wins when its
priority is at least the holder's (higher priority wins, and on a tie the
most recently registered facet wins). -/
def pickLater (acc : Option FacetConfig) (f : FacetConfig) : Option FacetConfig :=
  match acc with
  | none => some f
  | some g => if g.priority ≤ f.priority then some f else some g

/-- Modelled from the spec (§4.1 Selector Registry `register`): one
registration step for selector `s`; a facet claiming `s` overwrites the
current entry per `pickLater`, a facet not claiming it leaves the entry
alone. -/
def registerStep (s : Nat) (acc : Option FacetConfig) (f : FacetConfig) : Option FacetConfig :=
  if s ∈ f.selectors then pickLater acc f else acc

/-- Modelled from the spec (§4.1 `resolve`): the registry is rebuilt from
scratch on every pass by registering the target facets in caller order, so
resolution of a selector is the fold of `registerStep` over the target
configuration. -/
def resolve (facets : List FacetConfig) (s : Nat) : Option FacetConfig :=
  facets.foldl (registerStep s) none

/-- Facets of the target configuration that claim selector `s`, in input
order. -/
def claimants (facets : List FacetConfig) (s : Nat) : List FacetConfig :=
  facets.filter (fun f => decide (s ∈ f.selectors))

/-- All selectors mentioned by the target configuration, first occurrences
kept. -/
def targetSelectors (facets : List FacetConfig) : List Nat :=
  ((facets.map FacetConfig.selectors).flatten).dedup

/-- On-chain facet state as returned by a loupe-style read, flattened to
(selector, facet address) pairs. -/
abbrev ChainState := List (Nat × Nat)

/-- Lookup of the on-chain owner of a selector (first matching entry). -/
def chainLookup : ChainState → Nat → Option Nat
  | [], _ => none
  | p :: rest, s => if p.1 = s then some p.2 else chainLookup rest s

/-- Cut actions of EIP-2535. -/
inductive CutAction where
  | Add
  | Replace
  | Remove
  deriving DecidableEq, Repr

/-- A single-selector cut, the unit the Reconciler computes per selector
before grouping. -/
structure SelectorCut where
  action : CutAction
  facetAddress : Nat
  selector : Nat
  deriving DecidableEq, Repr

/-- A grouped cut operation: consecutive same-action, same-facet selector
cuts merged into one entry (spec §4.2 step 4, data model `CutOperation`). -/
structure CutOperation where
  action : CutAction
  facetAddress : Nat
  selectors : List Nat
  deriving DecidableEq, Repr

/-- Modelled from the spec (§4.2 step 2): a selector resolved by the registry
but absent on-chain yields an Add cut. -/
def addCut (facets : List FacetConfig) (chain : ChainState) (s : Nat) : Option SelectorCut :=
  match resolve facets s with
  | none => none
  | some f =>
    match chainLookup chain s with
    | none => some ⟨.Add, f.address, s⟩
    | some _ => none

/-- Modelled from the spec (§4.2 step 2): a selector whose on-chain owner
differs from the registry's resolved facet yields a Replace cut; a matching
owner yields nothing. -/
def replaceCut (facets : List FacetConfig) (chain : ChainState) (s : Nat) : Option SelectorCut :=
  match resolve facets s with
  | none => none
  | some f =>
    match chainLookup chain s with
    | none => none
    | some a => if a = f.address then none else some ⟨.Replace, f.address, s⟩

/-- Modelled from the spec (§4.2 step 3): an on-chain selector absent from
the registry is orphaned and yields a Remove cut (EIP-2535 removals carry the
zero address). -/
def removeCut (facets : List FacetConfig) (p : Nat × Nat) : Option SelectorCut :=
  match resolve facets p.1 with
  | none => some ⟨.Remove, 0, p.1⟩
  | some _ => none

/-- Modelled from the spec (§4.2 steps 1-4): the per-selector cuts of one
reconciliation pass, ordered Add, then Replace, then Remove. -/
def orderedCuts (facets : List FacetConfig) (chain : ChainState) : List SelectorCut :=
  (targetSelectors facets).filterMap (addCut facets chain)
    ++ (targetSelectors facets).filterMap (replaceCut facets chain)
    ++ chain.filterMap (removeCut facets)

/-- Modelled from the spec (§4.2 step 4): merge consecutive cuts with the
same action and target facet into single `CutOperation` entries. -/
def groupCuts : List SelectorCut → List CutOperation
  | [] => []
  | c :: rest =>
    match groupCuts rest with
    | [] => [⟨c.action, c.facetAddress, [c.selector]⟩]
    | op :: ops =>
      if c.action = op.action ∧ c.facetAddress = op.facetAddress then
        ⟨op.action, op.facetAddress, c.selector :: op.selectors⟩ :: ops
      else
        ⟨c.action, c.facetAddress, [c.selector]⟩ :: op :: ops

/-- Modelled from the spec (§4.2): the Facet Reconciler, from target
configuration and on-chain facet state to the ordered grouped cut
operations; empty when already converged. -/
def reconcile (facets : List FacetConfig) (chain : ChainState) : List CutOperation :=
  groupCuts (orderedCuts facets chain)

/-- Flatten grouped cut operations back to per-selector cuts. -/
def ungroup (ops : List CutOperation) : List SelectorCut :=
  (ops.map (fun op => op.selectors.map (fun s => SelectorCut.mk op.action op.facetAddress s))).flatten

/-- Modelled from the spec (§8 Convergence, simulated application): effect of
one per-selector cut on the on-chain selector-to-facet mapping per EIP-2535
semantics: Add appends the mapping, Replace rewrites the owner, Remove
deletes the selector. -/
def applyCut (chain : ChainState) (c : SelectorCut) : ChainState :=
  match c.action with
  | .Add => chain ++ [(c.selector, c.facetAddress)]
  | .Replace => chain.map (fun p => if p.1 = c.selector then (p.1, c.facetAddress) else p)
  | .Remove => chain.filter (fun p => decide (p.1 ≠ c.selector))

/-- Apply a list of per-selector cuts in order. -/
def applyCuts (chain : ChainState) (cuts : List SelectorCut) : ChainState :=
  cuts.foldl applyCut chain

/-- Apply grouped cut operations to an on-chain state. -/
def applyOperations (chain : ChainState) (ops : List CutOperation) : ChainState :=
  applyCuts chain (ungroup ops)

/-! ## Theorems -/

/-- C9: in `verifyDeployment`, each of the three validation steps (ABI
validation, selector validation, on-chain comparison) runs if and only if
its own flag is set, or none of `verifyContracts`, `validateAbi`,
`validateSelectors` and `compareOnChain` other than itself is set; with no
flags all three run, and with only `verifyContracts` set none of the three
runs. -/
theorem verify_step_gating :
    (∀ f : VerifyStepFlags,
      (runsValidateAbi f = true ↔
        (f.validateAbi = true ∨
          (f.verifyContracts = false ∧ f.validateSelectors = false ∧ f.compareOnChain = false))) ∧
      (runsValidateSelectors f = true ↔
        (f.validateSelectors = true ∨
          (f.verifyContracts = false ∧ f.validateAbi = false ∧ f.compareOnChain = false))) ∧
      (runsCompareOnChain f = true ↔
        (f.compareOnChain = true ∨
          (f.verifyContracts = false ∧ f.validateAbi = false ∧ f.validateSelectors = false)))) ∧
    (runsValidateAbi ⟨false, false, false, false⟩ = true ∧
      runsValidateSelectors ⟨false, false, false, false⟩ = true ∧
      runsCompareOnChain ⟨false, false, false, false⟩ = true) ∧
    (runsValidateAbi ⟨true, false, false, false⟩ = false ∧
      runsValidateSelectors ⟨true, false, false, false⟩ = false ∧
      runsCompareOnChain ⟨true, false, false, false⟩ = false ∧
      runsShowContractVerificationInfo ⟨true, false, false, false⟩ = true) := by
  refine ⟨fun f => ?_, by decide, by decide⟩
  obtain ⟨a, b, c, d⟩ := f
  revert a b c d
  decide

/-- Helper: the CLI default string "1.2" parses to the rational 6/5. -/
theorem parseFloatJS_default : parseFloatJS "1.2" = some 1.2 := by
  have h : "1.2".toList = ['1', '.', '2'] := by rfl
  have ht : List.takeWhile Char.isDigit ['1', '.', '2'] = ['1'] := by decide
  have hd : List.dropWhile Char.isDigit ['1', '.', '2'] = ['.', '2'] := by decide
  have ht2 : List.takeWhile Char.isDigit ['2'] = ['2'] := by decide
  have h1 : natOfDigits ['1'] = 1 := by decide
  have h2 : natOfDigits ['2'] = 2 := by decide
  rw [parseFloatJS]
  simp only [h, ht, hd, ht2, h1, h2]
  norm_num

/-- C4: with no explicit value from option, environment variable or config,
the effective defaults are max retries 3, retry delay 2000 ms and gas-limit
multiplier 1.2, identically in the CLI option parsing of the deploy and
upgrade commands and in the configuration displayed by `showConfiguration`. -/
theorem effective_defaults (env : Env) (c : RPCDiamondDeployerConfig)
    (h1 : env.GAS_LIMIT_MULTIPLIER = none) (h2 : env.MAX_RETRIES = none)
    (h3 : env.RETRY_DELAY_MS = none)
    (h4 : c.gasLimitMultiplier = none) (h5 : c.maxRetries = none)
    (h6 : c.retryDelayMs = none) :
    cliGasLimitMultiplierDefault env = some 1.2 ∧
    cliMaxRetriesDefault env = some 3 ∧
    cliRetryDelayMsDefault env = some 2000 ∧
    displayedGasLimitMultiplier c = 1.2 ∧
    displayedMaxRetries c = 3 ∧
    displayedRetryDelayMs c = 2000 := by
  refine ⟨?_, ?_, ?_, ?_, ?_, ?_⟩
  · rw [cliGasLimitMultiplierDefault, h1]
    exact parseFloatJS_default
  · rw [cliMaxRetriesDefault, h2]
    decide
  · rw [cliRetryDelayMsDefault, h3]
    decide
  · rw [displayedGasLimitMultiplier, h4]
    rfl
  · rw [displayedMaxRetries, h5]
    rfl
  · rw [displayedRetryDelayMs, h6]
    rfl

/-- Witness for C4 at a concrete environment and configuration. -/
theorem effective_defaults_witness :
    cliMaxRetriesDefault ⟨none, none, none, none, none, none⟩ = some 3 ∧
    displayedGasLimitMultiplier ⟨"D", none, none, "net", 0, none, none, none⟩ = 1.2 :=
  ⟨(effective_defaults ⟨none, none, none, none, none, none⟩
      ⟨"D", none, none, "net", 0, none, none, none⟩ rfl rfl rfl rfl rfl rfl).2.1,
   (effective_defaults ⟨none, none, none, none, none, none⟩
      ⟨"D", none, none, "net", 0, none, none, none⟩ rfl rfl rfl rfl rfl rfl).2.2.2.1⟩

/-- C8: after `VerifyContracts` returns, every facet entry carries
`verified = true`; facets that were unverified are exactly the submitted
ones, and facets already marked verified are left unchanged. -/
theorem verifyContracts_marks_all_verified (info : NetworkDeployInfo) :
    (∀ p ∈ (VerifyContracts info).FacetDeployedInfo, p.2.verified = true) ∧
    ((VerifyContracts info).facetsSubmitted =
      (info.FacetDeployedInfo.filter (fun p => !p.2.verified)).map Prod.fst) ∧
    (∀ p ∈ info.FacetDeployedInfo, p.2.verified = false →
      p.1 ∈ (VerifyContracts info).facetsSubmitted) ∧
    (∀ p ∈ info.FacetDeployedInfo, p.2.verified = true →
      p ∈ (VerifyContracts info).FacetDeployedInfo) ∧
    ((VerifyContracts info).FacetDeployedInfo =
      info.FacetDeployedInfo.map (fun p => (p.1, { p.2 with verified := true }))) := by
  have hmap : (VerifyContracts info).FacetDeployedInfo =
      info.FacetDeployedInfo.map (fun p => (p.1, { p.2 with verified := true })) := by
    rw [VerifyContracts]
    refine List.map_congr_left ?_
    intro p _
    by_cases hp : p.2.verified
    · obtain ⟨n, a, v⟩ := p
      simp only at hp
      simp [hp]
    · simp [hp]
  refine ⟨?_, rfl, ?_, ?_, hmap⟩
  · intro p hp
    rw [hmap] at hp
    obtain ⟨q, _, hq⟩ := List.mem_map.mp hp
    rw [← hq]
  · intro p hp hv
    rw [VerifyContracts]
    simp only [List.mem_map]
    exact ⟨p, List.mem_filter.mpr ⟨hp, by simp [hv]⟩, rfl⟩
  · intro p hp hv
    rw [hmap]
    refine List.mem_map.mpr ⟨p, hp, ?_⟩
    obtain ⟨n, a, v⟩ := p
    simp only at hv
    simp [hv]

/-- Witness for C8 at a concrete deployment info with one verified and one
unverified facet. -/
theorem verifyContracts_marks_all_verified_witness :
    (∀ p ∈ (VerifyContracts
        ⟨"0xd", "0xe", [("A", ⟨"0x1", true⟩), ("B", ⟨"0x2", false⟩)]⟩).FacetDeployedInfo,
      p.2.verified = true) ∧
    ("B" ∈ (VerifyContracts
        ⟨"0xd", "0xe", [("A", ⟨"0x1", true⟩), ("B", ⟨"0x2", false⟩)]⟩).facetsSubmitted) :=
  ⟨(verifyContracts_marks_all_verified
      ⟨"0xd", "0xe", [("A", ⟨"0x1", true⟩), ("B", ⟨"0x2", false⟩)]⟩).1,
   (verifyContracts_marks_all_verified
      ⟨"0xd", "0xe", [("A", ⟨"0x1", true⟩), ("B", ⟨"0x2", false⟩)]⟩).2.2.1
     ("B", ⟨"0x2", false⟩) (by decide) rfl⟩

/-- C3 counterexample: with a persisted protocol version of 0 (present, but
falsy in JavaScript), the already-deployed branch reports no protocol
version, so the run does not report the record's protocol version as the
claim states. -/
theorem deploy_skip_version_zero_not_reported :
    (deployDiamondRun id none ⟨"D", "net", some "k", none, none, none, none, none⟩
        ⟨none, none, none, none, none, none⟩
        ⟨true, ⟨some "0x1234", none, some 0, []⟩, true, []⟩).outcome =
      .alreadyDeployed (some "0x1234") none ∧
    (⟨true, ⟨some "0x1234", none, some 0, []⟩, true, []⟩ :
        DeployerState).deployedData.protocolVersion = some 0 ∧
    (deployDiamondRun id none ⟨"D", "net", some "k", none, none, none, none, none⟩
        ⟨none, none, none, none, none, none⟩
        ⟨true, ⟨some "0x1234", none, some 0, []⟩, true, []⟩).outcome ≠
      .alreadyDeployed (some "0x1234") (some 0) := by
  refine ⟨?_, rfl, ?_⟩ <;> decide

/-- C3 (amended): when the diamond is already deployed and validation
passes, the deploy operation performs no deployment, leaves the deployer
state unchanged, and reports the existing diamond address together with the
protocol version when that version is present and nonzero. -/
theorem deploy_skips_when_already_deployed
    (pd : DeployerState → DeployerState) (hh : Option RPCDiamondDeployerConfig)
    (o : DeploymentOptions) (env : Env) (st : DeployerState)
    (hv : deployValidateOptions o env = []) (hc : st.configValid = true)
    (hd : st.isDiamondDeployed = true) :
    deployDiamondRun pd hh o env st =
      { outcome := .alreadyDeployed st.deployedData.DiamondAddress
          (if natTruthy st.deployedData.protocolVersion then st.deployedData.protocolVersion
            else none)
        finalState := st
        usedConfig := some (createConfigDeploy hh o env) } := by
  rw [deployDiamondRun]
  simp [hv, hc, hd]

/-- Witness for C3 at a concrete already-deployed state with a nonzero
protocol version. -/
theorem deploy_skips_when_already_deployed_witness :
    deployDiamondRun id none ⟨"D", "net", some "k", none, none, none, none, none⟩
        ⟨none, none, none, none, none, none⟩
        ⟨true, ⟨some "0x9", none, some 2, []⟩, true, []⟩ =
      { outcome := .alreadyDeployed (some "0x9") (some 2)
        finalState := ⟨true, ⟨some "0x9", none, some 2, []⟩, true, []⟩
        usedConfig := some (createConfigDeploy none
          ⟨"D", "net", some "k", none, none, none, none, none⟩
          ⟨none, none, none, none, none, none⟩) } := by
  have h := deploy_skips_when_already_deployed id none
    ⟨"D", "net", some "k", none, none, none, none, none⟩
    ⟨none, none, none, none, none, none⟩
    ⟨true, ⟨some "0x9", none, some 2, []⟩, true, []⟩ (by decide) rfl rfl
  simpa using h

/-- C1 counterexample: with both the force and dry-run flags set the claim
says an upgrade is submitted (force is set), but the code returns after the
dry-run preview without submitting. -/
theorem upgrade_force_dry_run_not_submitted :
    (⟨"D", "net", some "k", none, none, none, none, none, true, true⟩ :
        UpgradeOptions).force = true ∧
    upgradeDiamondRun ⟨"D", "net", some "k", none, none, none, none, none, true, true⟩
        ⟨none, none, none, none, none, none⟩
        ⟨true, ⟨some "0x1", none, some 1, []⟩, true, []⟩ ⟨some 2, []⟩ =
      .dryRunPreview ∧
    upgradeDiamondRun ⟨"D", "net", some "k", none, none, none, none, none, true, true⟩
        ⟨none, none, none, none, none, none⟩
        ⟨true, ⟨some "0x1", none, some 1, []⟩, true, []⟩ ⟨some 2, []⟩ ≠
      .upgraded := by
  refine ⟨rfl, ?_, ?_⟩ <;> decide

/-- C1 (amended): when option validation passes, the diamond is deployed and
the configuration is valid, the upgrade operation submits an upgrade if and
only if the dry-run flag is not set and either the force flag is set, or
both the persisted record and the target configuration carry a present,
nonzero protocol version with the deployed one strictly less than the
target; in every other case it returns without submitting. -/
theorem upgrade_submits_iff
    (o : UpgradeOptions) (env : Env) (st : DeployerState) (target : DeployConfig)
    (hv : upgradeValidateOptions o env = []) (hd : st.isDiamondDeployed = true)
    (hc : st.configValid = true) :
    upgradeDiamondRun o env st target = .upgraded ↔
      (o.dryRun = false ∧
        (o.force = true ∨
          (natTruthy st.deployedData.protocolVersion = true ∧
            natTruthy target.protocolVersion = true ∧
            st.deployedData.protocolVersion.getD 0 < target.protocolVersion.getD 0))) := by
  rw [upgradeDiamondRun]
  simp only [hv, hd, hc]
  cases hf : o.force <;> cases hdr : o.dryRun <;>
    simp [upgradeNeedsUpgrade, hf, hdr, Bool.and_eq_true, decide_eq_true_iff, and_assoc]
  split <;> simp

/-- Witness for C1 at a concrete run with versions 1 and 2 and no flags,
which submits the upgrade. -/
theorem upgrade_submits_iff_witness :
    upgradeDiamondRun ⟨"D", "net", some "k", none, none, none, none, none, false, false⟩
        ⟨none, none, none, none, none, none⟩
        ⟨true, ⟨some "0x1", none, some 1, []⟩, true, []⟩ ⟨some 2, []⟩ =
      .upgraded :=
  (upgrade_submits_iff ⟨"D", "net", some "k", none, none, none, none, none, false, false⟩
      ⟨none, none, none, none, none, none⟩
      ⟨true, ⟨some "0x1", none, some 1, []⟩, true, []⟩ ⟨some 2, []⟩
      (by decide) rfl rfl).mpr ⟨rfl, Or.inr ⟨rfl, rfl, by decide⟩⟩

/-- C10: when hardhat configuration loading throws and neither the rpcUrl
option nor the RPC_URL environment variable is set, `createConfig` falls
back to a configuration whose `rpcUrl` is undefined, `validateOptions`
raises no RPC-URL error (it only requires one when `useHardhatConfig` is
explicitly false), and when the remaining validations pass the run proceeds
using that configuration. -/
theorem createConfig_fallback_undefined_rpc
    (o : DeploymentOptions) (env : Env) (st : DeployerState)
    (pd : DeployerState → DeployerState)
    (hrpc : o.rpcUrl = none) (henv : env.RPC_URL = none)
    (hhc : o.useHardhatConfig ≠ some false) :
    (createConfigDeploy none o env).rpcUrl = none ∧
    msgRpcUrlLegacy ∉ deployValidateOptions o env ∧
    (deployValidateOptions o env = [] →
      (deployDiamondRun pd none o env st).usedConfig =
        some (createConfigDeploy none o env)) := by
  refine ⟨?_, ?_, ?_⟩
  · rw [createConfigDeploy]
    rw [if_pos ⟨hhc, by rw [hrpc]; rfl⟩]
    simp [orTruthy, strTruthy, hrpc, henv]
  · rw [deployValidateOptions]
    split_ifs with h1 h2 h3 h4 <;>
      simp_all [msgRpcUrlLegacy, deployMsgDiamondName, deployMsgNetworkName, msgPrivateKey]
  · intro hval
    rw [deployDiamondRun]
    simp only [hval, ne_eq, not_true_eq_false, if_neg, reduceIte]
    split_ifs <;> rfl

/-- Witness for C10 at a concrete option set with hardhat loading failed and
no RPC URL anywhere. -/
theorem createConfig_fallback_undefined_rpc_witness :
    (createConfigDeploy none ⟨"D", "net", some "k", none, none, none, none, none⟩
        ⟨none, none, none, none, none, none⟩).rpcUrl = none ∧
    (deployDiamondRun id none ⟨"D", "net", some "k", none, none, none, none, none⟩
        ⟨none, none, none, none, none, none⟩
        ⟨false, ⟨none, none, none, []⟩, true, []⟩).usedConfig =
      some (createConfigDeploy none ⟨"D", "net", some "k", none, none, none, none, none⟩
        ⟨none, none, none, none, none, none⟩) :=
  ⟨(createConfig_fallback_undefined_rpc ⟨"D", "net", some "k", none, none, none, none, none⟩
      ⟨none, none, none, none, none, none⟩ ⟨false, ⟨none, none, none, []⟩, true, []⟩ id
      rfl rfl (by decide)).1,
   (createConfig_fallback_undefined_rpc ⟨"D", "net", some "k", none, none, none, none, none⟩
      ⟨none, none, none, none, none, none⟩ ⟨false, ⟨none, none, none, []⟩, true, []⟩ id
      rfl rfl (by decide)).2.2 (by decide)⟩

/-- C2: each of the three `validateOptions` functions collects every
detected problem into one list (the list is the concatenation of the
messages of all violated checks, not just the first), and whenever that list
is non-empty the deploy, upgrade and status flows exit before performing any
work, the deploy flow leaving the deployer state untouched. -/
theorem validation_enumerates_all_problems
    (o : DeploymentOptions) (uo : UpgradeOptions) (so : StatusOptions) (env : Env)
    (pd : DeployerState → DeployerState) (hh : Option RPCDiamondDeployerConfig)
    (st : DeployerState) (target : DeployConfig) :
    (deployValidateOptions o env =
      (if strTruthy (some o.diamondName) then [] else [deployMsgDiamondName])
        ++ (if strTruthy (some o.networkName) then [] else [deployMsgNetworkName])
        ++ (if strTruthy o.privateKey || strTruthy env.PRIVATE_KEY
              || strTruthy env.TEST_PRIVATE_KEY then [] else [msgPrivateKey])
        ++ (if o.useHardhatConfig = some false ∧ strTruthy o.rpcUrl = false
              ∧ strTruthy env.RPC_URL = false then [msgRpcUrlLegacy] else [])) ∧
    (upgradeValidateOptions uo env =
      (if strTruthy (some uo.diamondName) then [] else [upgradeMsgDiamondName])
        ++ (if strTruthy (some uo.networkName) then [] else [upgradeMsgNetworkName])
        ++ (if strTruthy uo.privateKey || strTruthy env.PRIVATE_KEY
              || strTruthy env.TEST_PRIVATE_KEY then [] else [msgPrivateKey])
        ++ (if uo.useHardhatConfig = some false ∧ strTruthy uo.rpcUrl = false
              ∧ strTruthy env.RPC_URL = false then [msgRpcUrlLegacy] else [])) ∧
    (statusValidateOptions so =
      (if strTruthy (some so.diamondName) then [] else [statusMsgDiamondName])
        ++ (if strTruthy so.rpcUrl then [] else [statusMsgRpcUrl])
        ++ (if strTruthy so.privateKey then [] else [statusMsgPrivateKey])) ∧
    (deployValidateOptions o env ≠ [] →
      deployDiamondRun pd hh o env st =
        { outcome := .validationExit (deployValidateOptions o env)
          finalState := st
          usedConfig := none }) ∧
    (upgradeValidateOptions uo env ≠ [] →
      upgradeDiamondRun uo env st target =
        .validationExit (upgradeValidateOptions uo env)) ∧
    (statusValidateOptions so ≠ [] →
      checkStatusRun so = .validationExit (statusValidateOptions so)) := by
  refine ⟨?_, ?_, ?_, ?_, ?_, ?_⟩
  · rw [deployValidateOptions]
    cases h1 : strTruthy (some o.diamondName) <;>
      cases h2 : strTruthy (some o.networkName) <;>
        cases h3 : strTruthy o.privateKey <;>
          cases h4 : strTruthy env.PRIVATE_KEY <;>
            cases h5 : strTruthy env.TEST_PRIVATE_KEY <;>
              cases h6 : strTruthy o.rpcUrl <;>
                cases h7 : strTruthy env.RPC_URL <;>
                  rcases o.useHardhatConfig with _ | (_ | _) <;>
                    simp [h1, h2, h3, h4, h5, h6, h7]
  · rw [upgradeValidateOptions]
    cases h1 : strTruthy (some uo.diamondName) <;>
      cases h2 : strTruthy (some uo.networkName) <;>
        cases h3 : strTruthy uo.privateKey <;>
          cases h4 : strTruthy env.PRIVATE_KEY <;>
            cases h5 : strTruthy env.TEST_PRIVATE_KEY <;>
              cases h6 : strTruthy uo.rpcUrl <;>
                cases h7 : strTruthy env.RPC_URL <;>
                  rcases uo.useHardhatConfig with _ | (_ | _) <;>
                    simp [h1, h2, h3, h4, h5, h6, h7]
  · rw [statusValidateOptions]
    cases h1 : strTruthy (some so.diamondName) <;>
      cases h2 : strTruthy so.rpcUrl <;>
        cases h3 : strTruthy so.privateKey <;>
          simp [h1, h2, h3]
  · intro h
    rw [deployDiamondRun, if_pos h]
  · intro h
    rw [upgradeDiamondRun, if_pos h]
  · intro h
    rw [checkStatusRun]
    exact if_pos h

/-- C5: a network call whose underlying RPC always fails with a retriable
error is attempted exactly `maxRetries` times and then fails with a
retriable-exhausted `TransactionError`; a fatal failure propagates on its
first attempt with no retry. -/
theorem retry_bound_and_fatal {α : Type} (maxRetries : Nat) (m mf : String)
    (call callF : Nat → CallResult α)
    (hmax : 1 ≤ maxRetries)
    (hall : ∀ i, call i = .err (.retriable m))
    (hfat : callF 1 = .err (.fatal mf)) :
    withRetry call maxRetries = (maxRetries, .error (.retriesExhausted m)) ∧
    withRetry callF maxRetries = (1, .error (.fatalError mf)) := by
  constructor
  · have key : ∀ k attempt, attempt + k = maxRetries →
        retryLoop call maxRetries attempt = (maxRetries, .error (.retriesExhausted m)) := by
      intro k
      induction k with
      | zero =>
        intro attempt h
        have ha : attempt = maxRetries := by omega
        subst ha
        rw [retryLoop, hall attempt]
        simp
      | succ n ih =>
        intro attempt h
        rw [retryLoop, hall attempt]
        have hlt : attempt < maxRetries := by omega
        simp only [hlt, dite_true, reduceDIte]
        exact ih (attempt + 1) (by omega)
    exact key (maxRetries - 1) 1 (by omega)
  · rw [withRetry, retryLoop, hfat]

/-- Witness for C5: an always-timing-out call with three retries makes
exactly three attempts; an immediately reverting call fails on attempt 1. -/
theorem retry_bound_and_fatal_witness :
    withRetry (fun _ => (.err (.retriable "timeout") : CallResult Unit)) 3 =
      (3, .error (.retriesExhausted "timeout")) ∧
    withRetry (fun _ => (.err (.fatal "reverted") : CallResult Unit)) 3 =
      (1, .error (.fatalError "reverted")) := by
  have h := retry_bound_and_fatal (α := Unit) 3 "timeout" "reverted"
    (fun _ => .err (.retriable "timeout")) (fun _ => .err (.fatal "reverted"))
    (by decide) (fun _ => rfl) rfl
  exact ⟨h.1, h.2⟩

/-- Helper: resolution of a selector is the fold of the conflict resolver
over the claimants of the selector, in input order. -/
theorem resolve_eq_foldl_claimants (facets : List FacetConfig) (s : Nat)
    (acc : Option FacetConfig) :
    facets.foldl (registerStep s) acc = (claimants facets s).foldl pickLater acc := by
  induction facets generalizing acc with
  | nil => rfl
  | cons h t ih =>
    by_cases hs : s ∈ h.selectors
    · simp [claimants, List.filter_cons, hs, registerStep, ih, claimants]
    · simp [claimants, List.filter_cons, hs, registerStep, ih, claimants]

/-- C7: for a selector claimed by two target facets, the higher-priority
facet wins ownership regardless of the order in which the two appear, and on
a priority tie the most recently registered (later) facet wins. -/
theorem priority_determinism (facets : List FacetConfig) (s : Nat) (f g : FacetConfig)
    (h : claimants facets s = [f, g] ∨ claimants facets s = [g, f]) :
    (g.priority < f.priority → resolve facets s = some f) ∧
    (claimants facets s = [f, g] → f.priority = g.priority → resolve facets s = some g) := by
  have hres : resolve facets s = (claimants facets s).foldl pickLater none :=
    resolve_eq_foldl_claimants facets s none
  constructor
  · intro hp
    rcases h with h | h
    · rw [hres, h]
      simp only [List.foldl, pickLater]
      rw [if_neg (by omega)]
    · rw [hres, h]
      simp only [List.foldl, pickLater]
      rw [if_pos (by omega)]
  · intro h2 hp
    rw [hres, h2]
    simp only [List.foldl, pickLater]
    rw [if_pos (le_of_eq hp)]

/-- Witness for C7: with facets A (priority 2) and B (priority 1) both
claiming selector 5, A wins in either input order; with equal priorities the
later facet wins. -/
theorem priority_determinism_witness :
    resolve [⟨"A", 1, [5], 2⟩, ⟨"B", 2, [5], 1⟩] 5 = some ⟨"A", 1, [5], 2⟩ ∧
    resolve [⟨"B", 2, [5], 1⟩, ⟨"A", 1, [5], 2⟩] 5 = some ⟨"A", 1, [5], 2⟩ ∧
    resolve [⟨"A", 1, [5], 1⟩, ⟨"B", 2, [5], 1⟩] 5 = some ⟨"B", 2, [5], 1⟩ :=
  ⟨(priority_determinism [⟨"A", 1, [5], 2⟩, ⟨"B", 2, [5], 1⟩] 5
      ⟨"A", 1, [5], 2⟩ ⟨"B", 2, [5], 1⟩ (Or.inl (by decide))).1 (by decide),
   (priority_determinism [⟨"B", 2, [5], 1⟩, ⟨"A", 1, [5], 2⟩] 5
      ⟨"A", 1, [5], 2⟩ ⟨"B", 2, [5], 1⟩ (Or.inr (by decide))).1 (by decide),
   (priority_determinism [⟨"A", 1, [5], 1⟩, ⟨"B", 2, [5], 1⟩] 5
      ⟨"A", 1, [5], 1⟩ ⟨"B", 2, [5], 1⟩ (Or.inl (by decide))).2 (by decide) rfl⟩

/-- Helper: lookup in a chain extended by one trailing entry. -/
theorem chainLookup_append_single (l : ChainState) (t a s : Nat) :
    chainLookup (l ++ [(t, a)]) s =
      match chainLookup l s with
      | some x => some x
      | none => if t = s then some a else none := by
  induction l with
  | nil => rfl
  | cons p rest ih =>
    by_cases hp : p.1 = s
    · simp [chainLookup, hp]
    · simp [chainLookup, hp, ih]

/-- Helper: lookup in a chain whose entries with key `t` were rewritten to
address `b`. -/
theorem chainLookup_map_replace (l : ChainState) (t b s : Nat) :
    chainLookup (l.map (fun p => if p.1 = t then (p.1, b) else p)) s =
      if t = s then (chainLookup l s).map (fun _ => b) else chainLookup l s := by
  induction l with
  | nil => simp [chainLookup]
  | cons p rest ih =>
    rw [List.map_cons]
    by_cases hp : p.1 = t
    · rw [if_pos hp]
      rw [show chainLookup ((p.1, b) :: List.map (fun p => if p.1 = t then (p.1, b) else p) rest) s
          = if p.1 = s then some b
            else chainLookup (List.map (fun p => if p.1 = t then (p.1, b) else p) rest) s from rfl]
      by_cases hs : p.1 = s
      · rw [if_pos hs, if_pos (by omega : t = s)]
        rw [show chainLookup (p :: rest) s = if p.1 = s then some p.2 else chainLookup rest s
            from rfl]
        rw [if_pos hs]
        rfl
      · rw [if_neg hs, ih]
        rw [show chainLookup (p :: rest) s = if p.1 = s then some p.2 else chainLookup rest s
            from rfl]
        rw [if_neg hs]
    · rw [if_neg hp]
      rw [show chainLookup (p :: List.map (fun p => if p.1 = t then (p.1, b) else p) rest) s
          = if p.1 = s then some p.2
            else chainLookup (List.map (fun p => if p.1 = t then (p.1, b) else p) rest) s from rfl]
      rw [show chainLookup (p :: rest) s = if p.1 = s then some p.2 else chainLookup rest s
          from rfl]
      by_cases hs : p.1 = s
      · rw [if_pos hs, if_pos hs, if_neg (by omega : ¬t = s)]
      · rw [if_neg hs, if_neg hs, ih]

/-- Helper: lookup in a chain with the entries keyed `t` filtered out. -/
theorem chainLookup_filter_ne (l : ChainState) (t s : Nat) :
    chainLookup (l.filter (fun p => decide (p.1 ≠ t))) s =
      if t = s then none else chainLookup l s := by
  induction l with
  | nil => simp [chainLookup]
  | cons p rest ih =>
    rw [List.filter_cons]
    by_cases hp : p.1 = t
    · rw [if_neg (by simp [hp])]
      rw [ih]
      rw [show chainLookup (p :: rest) s = if p.1 = s then some p.2 else chainLookup rest s
          from rfl]
      by_cases hts : t = s
      · rw [if_pos hts, if_pos hts]
      · rw [if_neg hts, if_neg hts, if_neg (by omega : ¬p.1 = s)]
    · rw [if_pos (by simp [hp])]
      rw [show chainLookup (p :: List.filter (fun p => decide (p.1 ≠ t)) rest) s
          = if p.1 = s then some p.2
            else chainLookup (List.filter (fun p => decide (p.1 ≠ t)) rest) s from rfl]
      rw [show chainLookup (p :: rest) s = if p.1 = s then some p.2 else chainLookup rest s
          from rfl]
      by_cases hs : p.1 = s
      · rw [if_pos hs, if_pos hs, if_neg (by omega : ¬t = s)]
      · rw [if_neg hs, if_neg hs, ih]

/-- Helper: a cut for a different selector does not change a selector's
owner. -/
theorem applyCut_lookup_other (chain : ChainState) (c : SelectorCut) (s : Nat)
    (h : c.selector ≠ s) :
    chainLookup (applyCut chain c) s = chainLookup chain s := by
  rcases c with ⟨act, addr, sel⟩
  simp only at h
  cases act
  · rw [applyCut]
    rw [chainLookup_append_single]
    cases hc : chainLookup chain s <;> simp [h]
  · rw [applyCut]
    rw [chainLookup_map_replace, if_neg h]
  · rw [applyCut]
    rw [chainLookup_filter_ne, if_neg h]

/-- Helper: an Add cut installs its facet as owner of a previously unowned
selector. -/
theorem applyCut_lookup_add (chain : ChainState) (addr s : Nat)
    (h : chainLookup chain s = none) :
    chainLookup (applyCut chain ⟨.Add, addr, s⟩) s = some addr := by
  rw [applyCut]
  rw [chainLookup_append_single, h]
  simp

/-- Helper: a Replace cut rewrites the owner of an owned selector. -/
theorem applyCut_lookup_replace (chain : ChainState) (addr s a : Nat)
    (h : chainLookup chain s = some a) :
    chainLookup (applyCut chain ⟨.Replace, addr, s⟩) s = some addr := by
  rw [applyCut]
  rw [chainLookup_map_replace, if_pos rfl, h]
  rfl

/-- Helper: a Remove cut deletes a selector's owner. -/
theorem applyCut_lookup_remove (chain : ChainState) (addr s : Nat) :
    chainLookup (applyCut chain ⟨.Remove, addr, s⟩) s = none := by
  rw [applyCut]
  rw [chainLookup_filter_ne, if_pos rfl]

/-- Helper: cuts that never mention a selector leave its owner unchanged. -/
theorem applyCuts_lookup_untouched (cuts : List SelectorCut) (chain : ChainState) (s : Nat)
    (h : ∀ c ∈ cuts, c.selector ≠ s) :
    chainLookup (applyCuts chain cuts) s = chainLookup chain s := by
  induction cuts generalizing chain with
  | nil => rfl
  | cons c rest ih =>
    rw [applyCuts, List.foldl_cons]
    rw [show List.foldl applyCut (applyCut chain c) rest
        = applyCuts (applyCut chain c) rest from rfl]
    rw [ih (applyCut chain c) (fun d hd => h d (List.mem_cons_of_mem _ hd))]
    exact applyCut_lookup_other chain c s (h c (List.mem_cons_self _ _))

/-- Helper: with pairwise-distinct cut selectors, the final owner of a cut's
selector is determined by that cut alone: its facet for Add (on a previously
unowned selector) and Replace (on an owned one), and no owner for Remove. -/
theorem applyCuts_lookup_self (cuts : List SelectorCut) (chain : ChainState)
    (c : SelectorCut)
    (hnd : (cuts.map SelectorCut.selector).Nodup) (hc : c ∈ cuts)
    (hadd : c.action = .Add → chainLookup chain c.selector = none)
    (hrep : c.action = .Replace → (chainLookup chain c.selector).isSome) :
    chainLookup (applyCuts chain cuts) c.selector =
      match c.action with
      | .Add => some c.facetAddress
      | .Replace => some c.facetAddress
      | .Remove => none := by
  induction cuts generalizing chain with
  | nil => cases hc
  | cons d rest ih =>
    rw [applyCuts, List.foldl_cons]
    rw [show List.foldl applyCut (applyCut chain d) rest
        = applyCuts (applyCut chain d) rest from rfl]
    rcases List.mem_cons.mp hc with rfl | hmem
    · have hrest : ∀ e ∈ rest, e.selector ≠ c.selector := by
        intro e he hes
        have hns : c.selector ∉ rest.map SelectorCut.selector :=
          (List.nodup_cons.mp hnd).1
        exact hns (hes ▸ List.mem_map_of_mem SelectorCut.selector he)
      rw [applyCuts_lookup_untouched rest _ _ hrest]
      rcases c with ⟨act, addr, sel⟩
      cases act
      · simpa using applyCut_lookup_add chain addr sel (hadd rfl)
      · obtain ⟨a, ha⟩ := Option.isSome_iff_exists.mp (hrep rfl)
        simpa using applyCut_lookup_replace chain addr sel a ha
      · simpa using applyCut_lookup_remove chain addr sel
    · have hne : d.selector ≠ c.selector := by
        intro hds
        have hns : d.selector ∉ rest.map SelectorCut.selector :=
          (List.nodup_cons.mp hnd).1
        exact hns (hds ▸ List.mem_map_of_mem SelectorCut.selector hmem)
      have hpres : chainLookup (applyCut chain d) c.selector = chainLookup chain c.selector :=
        applyCut_lookup_other chain d c.selector hne
      exact ih (applyCut chain d) (List.nodup_cons.mp hnd).2 hmem
        (fun h => hpres.trans (hadd h))
        (fun h => hpres.symm ▸ hrep h)

/-- Helper: characterization of Add-cut generation. -/
theorem addCut_eq_some (facets : List FacetConfig) (chain : ChainState) (s : Nat)
    (c : SelectorCut) :
    addCut facets chain s = some c ↔
      ∃ f, resolve facets s = some f ∧ chainLookup chain s = none
        ∧ c = ⟨.Add, f.address, s⟩ := by
  rw [addCut]
  cases hr : resolve facets s <;> cases hl : chainLookup chain s <;>
    simp [hr, hl, eq_comm]

/-- Helper: characterization of Replace-cut generation. -/
theorem replaceCut_eq_some (facets : List FacetConfig) (chain : ChainState) (s : Nat)
    (c : SelectorCut) :
    replaceCut facets chain s = some c ↔
      ∃ f a, resolve facets s = some f ∧ chainLookup chain s = some a
        ∧ a ≠ f.address ∧ c = ⟨.Replace, f.address, s⟩ := by
  rw [replaceCut]
  cases hr : resolve facets s <;> cases hl : chainLookup chain s <;>
    simp [hr, hl, eq_comm]

/-- Helper: characterization of Remove-cut generation. -/
theorem removeCut_eq_some (facets : List FacetConfig) (p : Nat × Nat) (c : SelectorCut) :
    removeCut facets p = some c ↔
      resolve facets p.1 = none ∧ c = ⟨.Remove, 0, p.1⟩ := by
  rw [removeCut]
  cases hr : resolve facets p.1 <;> simp [hr, eq_comm]

/-- Helper: the selectors of generated cuts are the source elements that
generated one, when every generated cut carries its source's key as its
selector. -/
theorem map_sel_filterMap {β : Type} (l : List β) (f : β → Option SelectorCut) (key : β → Nat)
    (hf : ∀ b c, f b = some c → c.selector = key b) :
    (l.filterMap f).map SelectorCut.selector = (l.filter (fun b => (f b).isSome)).map key := by
  induction l with
  | nil => rfl
  | cons b rest ih =>
    cases hb : f b with
    | none => simp [List.filterMap_cons, List.filter_cons, hb, ih]
    | some c => simp [List.filterMap_cons, List.filter_cons, hb, ih, hf b c hb]

/-- Helper: the conflict resolver always returns an entry. -/
theorem pickLater_isSome (acc : Option FacetConfig) (f : FacetConfig) :
    (pickLater acc f).isSome := by
  cases acc with
  | none => rfl
  | some g =>
    rw [pickLater]
    split_ifs <;> rfl

/-- Helper: registration never discards an existing entry. -/
theorem foldl_registerStep_isSome (s : Nat) (l : List FacetConfig) (acc : Option FacetConfig)
    (h : acc.isSome) : (l.foldl (registerStep s) acc).isSome := by
  induction l generalizing acc with
  | nil => exact h
  | cons f t ih =>
    apply ih
    rw [registerStep]
    split_ifs with hf
    · exact pickLater_isSome acc f
    · exact h

/-- Helper: a selector claimed by some facet of the configuration resolves
to an entry. -/
theorem resolve_isSome_of_claims (facets : List FacetConfig) (s : Nat) (f : FacetConfig)
    (hf : f ∈ facets) (hs : s ∈ f.selectors) : (resolve facets s).isSome := by
  rw [resolve]
  have key : ∀ (l : List FacetConfig) (acc : Option FacetConfig), f ∈ l →
      (l.foldl (registerStep s) acc).isSome := by
    intro l
    induction l with
    | nil => intro acc h; cases h
    | cons g t ih =>
      intro acc hm
      rcases List.mem_cons.mp hm with rfl | hmem
      · rw [List.foldl_cons]
        apply foldl_registerStep_isSome
        rw [registerStep, if_pos hs]
        exact pickLater_isSome acc f
      · exact ih _ hmem
  exact key facets none hf

/-- Helper: a resolved selector is claimed by some facet of the
configuration. -/
theorem resolve_some_claims (facets : List FacetConfig) (s : Nat)
    (h : (resolve facets s).isSome) : ∃ f ∈ facets, s ∈ f.selectors := by
  rw [resolve] at h
  have key : ∀ (l : List FacetConfig) (acc : Option FacetConfig),
      (l.foldl (registerStep s) acc).isSome → acc.isSome ∨ ∃ f ∈ l, s ∈ f.selectors := by
    intro l
    induction l with
    | nil => intro acc h; exact Or.inl h
    | cons g t ih =>
      intro acc hfold
      rw [List.foldl_cons] at hfold
      rcases ih _ hfold with hstep | ⟨f, hf, hfs⟩
      · rw [registerStep] at hstep
        by_cases hg : s ∈ g.selectors
        · exact Or.inr ⟨g, List.mem_cons_self _ _, hg⟩
        · rw [if_neg hg] at hstep
          exact Or.inl hstep
      · exact Or.inr ⟨f, List.mem_cons_of_mem _ hf, hfs⟩
  rcases key facets none h with habs | hex
  · cases habs
  · exact hex

/-- Helper: membership in the target selector list is exactly being claimed
by some facet, hence exactly resolvability. -/
theorem mem_targetSelectors (facets : List FacetConfig) (s : Nat) :
    s ∈ targetSelectors facets ↔ ∃ f ∈ facets, s ∈ f.selectors := by
  rw [targetSelectors, List.mem_dedup, List.mem_flatten]
  constructor
  · rintro ⟨sel, hsel, hs⟩
    obtain ⟨f, hf, rfl⟩ := List.mem_map.mp hsel
    exact ⟨f, hf, hs⟩
  · rintro ⟨f, hf, hs⟩
    exact ⟨f.selectors, List.mem_map_of_mem _ hf, hs⟩

/-- Helper: a chain entry's key has an owner under lookup. -/
theorem chainLookup_isSome_of_mem (l : ChainState) (p : Nat × Nat) (hp : p ∈ l) :
    (chainLookup l p.1).isSome := by
  induction l with
  | nil => cases hp
  | cons q rest ih =>
    rcases List.mem_cons.mp hp with rfl | hmem
    · simp [chainLookup]
    · by_cases hq : q.1 = p.1 <;> simp [chainLookup, hq, ih hmem]

/-- Helper: a successful lookup exhibits a chain entry. -/
theorem chainLookup_eq_some_mem (l : ChainState) (s a : Nat)
    (h : chainLookup l s = some a) : (s, a) ∈ l := by
  induction l with
  | nil => cases h
  | cons q rest ih =>
    rw [chainLookup] at h
    split_ifs at h with hq
    · refine List.mem_cons.mpr (Or.inl ?_)
      obtain ⟨q1, q2⟩ := q
      simp only at hq
      injection h with h2
      simp only at h2
      subst h2
      rw [hq]
    · exact List.mem_cons_of_mem _ (ih h)

/-- Helper: membership in the ordered cut list comes from one of the three
generators. -/
theorem mem_orderedCuts (facets : List FacetConfig) (chain : ChainState) (c : SelectorCut) :
    c ∈ orderedCuts facets chain ↔
      (∃ s ∈ targetSelectors facets, addCut facets chain s = some c) ∨
      (∃ s ∈ targetSelectors facets, replaceCut facets chain s = some c) ∨
      (∃ p ∈ chain, removeCut facets p = some c) := by
  rw [orderedCuts]
  simp [List.mem_append, List.mem_filterMap]

/-- Helper: a generated Add cut presupposes a resolvable, unowned selector. -/
theorem addCut_isSome (facets : List FacetConfig) (chain : ChainState) (s : Nat)
    (h : (addCut facets chain s).isSome) :
    (resolve facets s).isSome ∧ chainLookup chain s = none := by
  obtain ⟨c, hc⟩ := Option.isSome_iff_exists.mp h
  obtain ⟨f, hf, hl, rfl⟩ := (addCut_eq_some _ _ _ _).mp hc
  exact ⟨by rw [hf]; rfl, hl⟩

/-- Helper: a generated Replace cut presupposes a resolvable, owned
selector. -/
theorem replaceCut_isSome (facets : List FacetConfig) (chain : ChainState) (s : Nat)
    (h : (replaceCut facets chain s).isSome) :
    (resolve facets s).isSome ∧ (chainLookup chain s).isSome := by
  obtain ⟨c, hc⟩ := Option.isSome_iff_exists.mp h
  obtain ⟨f, a, hf, hl, _, rfl⟩ := (replaceCut_eq_some _ _ _ _).mp hc
  exact ⟨by rw [hf]; rfl, by rw [hl]; rfl⟩

/-- Helper: a generated Remove cut presupposes an orphaned selector. -/
theorem removeCut_isSome (facets : List FacetConfig) (p : Nat × Nat)
    (h : (removeCut facets p).isSome) : resolve facets p.1 = none := by
  obtain ⟨c, hc⟩ := Option.isSome_iff_exists.mp h
  exact ((removeCut_eq_some _ _ _).mp hc).1

/-- Helper: the selectors of one reconciliation pass's ordered cuts are
pairwise distinct when the chain's keys are. -/
theorem orderedCuts_sels_nodup (facets : List FacetConfig) (chain : ChainState)
    (hnd : (chain.map Prod.fst).Nodup) :
    ((orderedCuts facets chain).map SelectorCut.selector).Nodup := by
  rw [orderedCuts, List.map_append, List.map_append]
  have hfA : ∀ b c, addCut facets chain b = some c → SelectorCut.selector c = id b := by
    intro b c hb
    obtain ⟨f, _, _, rfl⟩ := (addCut_eq_some _ _ _ _).mp hb
    rfl
  have hfB : ∀ b c, replaceCut facets chain b = some c → SelectorCut.selector c = id b := by
    intro b c hb
    obtain ⟨f, a, _, _, _, rfl⟩ := (replaceCut_eq_some _ _ _ _).mp hb
    rfl
  have hfC : ∀ b c, removeCut facets b = some c → SelectorCut.selector c = Prod.fst b := by
    intro b c hb
    obtain ⟨_, rfl⟩ := (removeCut_eq_some _ _ _).mp hb
    rfl
  have hA := map_sel_filterMap (targetSelectors facets) (addCut facets chain) id hfA
  have hB := map_sel_filterMap (targetSelectors facets) (replaceCut facets chain) id hfB
  have hC := map_sel_filterMap chain (removeCut facets) Prod.fst hfC
  rw [List.map_id] at hA hB
  rw [hA, hB, hC]
  have hdom : (targetSelectors facets).Nodup := List.nodup_dedup _
  refine List.Nodup.append
    (List.Nodup.append (hdom.filter _) (hdom.filter _) ?dAB) ?ndC ?dABC
  case dAB =>
    intro s hs1 hs2
    have hAdd := addCut_isSome facets chain s (by simpa using (List.mem_filter.mp hs1).2)
    have hRep := replaceCut_isSome facets chain s
      (by simpa using (List.mem_filter.mp hs2).2)
    rw [hAdd.2] at hRep
    cases hRep.2
  case ndC =>
    exact ((List.filter_sublist _).map Prod.fst).nodup hnd
  case dABC =>
    intro s hs1 hs2
    obtain ⟨p, hp, rfl⟩ := List.mem_map.mp hs2
    have hres := removeCut_isSome facets p (by simpa using (List.mem_filter.mp hp).2)
    rcases List.mem_append.mp hs1 with hs1 | hs1
    · have hAdd := addCut_isSome facets chain p.1
        (by simpa using (List.mem_filter.mp hs1).2)
      have := hAdd.1
      rw [hres] at this
      cases this
    · have hRep := replaceCut_isSome facets chain p.1
        (by simpa using (List.mem_filter.mp hs1).2)
      have := hRep.1
      rw [hres] at this
      cases this

/-- Helper: a selector whose resolution already matches its on-chain owner,
or which is neither resolvable nor owned, receives no cut. -/
theorem no_cut_for_selector (facets : List FacetConfig) (chain : ChainState) (s : Nat)
    (hmatch : ∀ f, resolve facets s = some f → chainLookup chain s = some f.address)
    (hnone : resolve facets s = none → chainLookup chain s = none) :
    ∀ c ∈ orderedCuts facets chain, c.selector ≠ s := by
  intro c hc hcs
  rcases (mem_orderedCuts _ _ _).mp hc with ⟨t, ht, hgen⟩ | ⟨t, ht, hgen⟩ | ⟨p, hp, hgen⟩
  · obtain ⟨f, hf, hl, rfl⟩ := (addCut_eq_some _ _ _ _).mp hgen
    simp only at hcs
    subst hcs
    rw [hmatch f hf] at hl
    cases hl
  · obtain ⟨f, a, hf, hl, hne, rfl⟩ := (replaceCut_eq_some _ _ _ _).mp hgen
    simp only at hcs
    subst hcs
    rw [hmatch f hf] at hl
    injection hl with h2
    exact hne h2.symm
  · obtain ⟨hres, rfl⟩ := (removeCut_eq_some _ _ _).mp hgen
    simp only at hcs
    have hsome := chainLookup_isSome_of_mem chain p hp
    rw [hcs, hnone (hcs ▸ hres)] at hsome
    cases hsome

/-- Helper: applying the ordered cuts of one pass makes every selector's
on-chain owner the registry's resolved facet address. -/
theorem applyCuts_orderedCuts_lookup (facets : List FacetConfig) (chain : ChainState)
    (hnd : (chain.map Prod.fst).Nodup) (s : Nat) :
    chainLookup (applyCuts chain (orderedCuts facets chain)) s =
      (resolve facets s).map FacetConfig.address := by
  cases hr : resolve facets s with
  | none =>
    cases hl : chainLookup chain s with
    | none =>
      rw [applyCuts_lookup_untouched _ _ _ (no_cut_for_selector facets chain s
        (fun f hf => by rw [hr] at hf; cases hf)
        (fun _ => hl)), hl]
      rfl
    | some a =>
      have hmem : (⟨.Remove, 0, s⟩ : SelectorCut) ∈ orderedCuts facets chain := by
        rw [mem_orderedCuts]
        refine Or.inr (Or.inr ⟨(s, a), chainLookup_eq_some_mem chain s a hl, ?_⟩)
        rw [removeCut_eq_some]
        exact ⟨hr, rfl⟩
      have h := applyCuts_lookup_self (orderedCuts facets chain) chain ⟨.Remove, 0, s⟩
        (orderedCuts_sels_nodup facets chain hnd) hmem (by simp) (by simp)
      simpa using h
  | some f =>
    cases hl : chainLookup chain s with
    | none =>
      have hdom : s ∈ targetSelectors facets := by
        rw [mem_targetSelectors]
        exact resolve_some_claims facets s (by rw [hr]; rfl)
      have hmem : (⟨.Add, f.address, s⟩ : SelectorCut) ∈ orderedCuts facets chain := by
        rw [mem_orderedCuts]
        refine Or.inl ⟨s, hdom, ?_⟩
        rw [addCut_eq_some]
        exact ⟨f, hr, hl, rfl⟩
      have h := applyCuts_lookup_self (orderedCuts facets chain) chain ⟨.Add, f.address, s⟩
        (orderedCuts_sels_nodup facets chain hnd) hmem (fun _ => hl) (by simp)
      simpa using h
    | some a =>
      by_cases ha : a = f.address
      · rw [applyCuts_lookup_untouched _ _ _ (no_cut_for_selector facets chain s
          (fun g hg => by rw [hr] at hg; injection hg with h2; rw [hl, ha, h2])
          (fun h0 => by rw [hr] at h0; cases h0)), hl, ha]
        rfl
      · have hmem : (⟨.Replace, f.address, s⟩ : SelectorCut) ∈ orderedCuts facets chain := by
          rw [mem_orderedCuts]
          refine Or.inr (Or.inl ⟨s, ?_, ?_⟩)
          · rw [mem_targetSelectors]
            exact resolve_some_claims facets s (by rw [hr]; rfl)
          · rw [replaceCut_eq_some]
            exact ⟨f, a, hr, hl, ha, rfl⟩
        have h := applyCuts_lookup_self (orderedCuts facets chain) chain
          ⟨.Replace, f.address, s⟩ (orderedCuts_sels_nodup facets chain hnd) hmem
          (by simp) (fun _ => by rw [hl]; rfl)
        simpa using h

/-- Helper: grouping sends the empty cut list, and only it, to the empty
operation list. -/
theorem groupCuts_eq_nil_iff (l : List SelectorCut) : groupCuts l = [] ↔ l = [] := by
  cases l with
  | nil => simp [groupCuts]
  | cons c rest =>
    cases hg : groupCuts rest with
    | nil => simp [groupCuts, hg]
    | cons op ops =>
      by_cases h : c.action = op.action ∧ c.facetAddress = op.facetAddress <;>
        simp [groupCuts, hg, h]

/-- Helper: ungrouping a single grouped operation list prepends its
flattened cuts. -/
theorem ungroup_cons (op : CutOperation) (ops : List CutOperation) :
    ungroup (op :: ops) =
      op.selectors.map (fun s => SelectorCut.mk op.action op.facetAddress s)
        ++ ungroup ops := by
  rw [ungroup, ungroup, List.map_cons, List.flatten_cons]

/-- Helper: ungrouping inverts grouping. -/
theorem ungroup_groupCuts (l : List SelectorCut) : ungroup (groupCuts l) = l := by
  induction l with
  | nil => rfl
  | cons c rest ih =>
    cases hg : groupCuts rest with
    | nil =>
      have hrest : rest = [] := (groupCuts_eq_nil_iff rest).mp hg
      subst hrest
      rfl
    | cons op ops =>
      by_cases hsame : c.action = op.action ∧ c.facetAddress = op.facetAddress
      · simp only [groupCuts, hg, if_pos hsame]
        rw [ungroup_cons]
        rw [List.map_cons, List.cons_append]
        rw [show op.selectors.map
              (fun s => SelectorCut.mk op.action op.facetAddress s) ++ ungroup ops
            = ungroup (op :: ops) from (ungroup_cons op ops).symm]
        have ih2 : ungroup (op :: ops) = rest := by rw [← hg]; exact ih
        rw [ih2]
        obtain ⟨ca, cf, cs⟩ := c
        obtain ⟨h1, h2⟩ := hsame
        simp only at h1 h2
        simp [h1, h2]
      · simp only [groupCuts, hg, if_neg hsame]
        rw [ungroup_cons]
        have ih2 : ungroup (op :: ops) = rest := by rw [← hg]; exact ih
        rw [ih2]
        simp

/-- Helper: applying one reconciliation pass's grouped operations makes
every selector's owner the registry's resolved facet address. -/
theorem lookup_after_apply (facets : List FacetConfig) (chain : ChainState)
    (hnd : (chain.map Prod.fst).Nodup) (s : Nat) :
    chainLookup (applyOperations chain (reconcile facets chain)) s =
      (resolve facets s).map FacetConfig.address := by
  rw [applyOperations, reconcile, ungroup_groupCuts]
  exact applyCuts_orderedCuts_lookup facets chain hnd s

/-- C6 (amended): a second reconciliation run against the same target
configuration and the on-chain facet state obtained by applying the first
run's cut operations yields an empty cut-operation list. -/
theorem reconcile_idempotent (facets : List FacetConfig) (chain : ChainState)
    (hnd : (chain.map Prod.fst).Nodup) :
    reconcile facets (applyOperations chain (reconcile facets chain)) = [] := by
  have hlook := lookup_after_apply facets chain hnd
  rw [reconcile, groupCuts_eq_nil_iff, orderedCuts]
  have h1 : (targetSelectors facets).filterMap
      (addCut facets (applyOperations chain (reconcile facets chain))) = [] := by
    rw [List.filterMap_eq_nil_iff]
    intro s hs
    obtain ⟨f, hfmem, hfs⟩ := (mem_targetSelectors facets s).mp hs
    obtain ⟨g, hg⟩ :=
      Option.isSome_iff_exists.mp (resolve_isSome_of_claims facets s f hfmem hfs)
    rw [addCut, hg, hlook s, hg]
    simp
  have h2 : (targetSelectors facets).filterMap
      (replaceCut facets (applyOperations chain (reconcile facets chain))) = [] := by
    rw [List.filterMap_eq_nil_iff]
    intro s hs
    obtain ⟨f, hfmem, hfs⟩ := (mem_targetSelectors facets s).mp hs
    obtain ⟨g, hg⟩ :=
      Option.isSome_iff_exists.mp (resolve_isSome_of_claims facets s f hfmem hfs)
    rw [replaceCut, hg, hlook s, hg]
    simp
  have h3 : (applyOperations chain (reconcile facets chain)).filterMap
      (removeCut facets) = [] := by
    rw [List.filterMap_eq_nil_iff]
    intro p hp
    have hsome := chainLookup_isSome_of_mem _ p hp
    rw [hlook p.1] at hsome
    obtain ⟨g, hg⟩ := Option.isSome_iff_exists.mp (by simpa using hsome)
    rw [removeCut, hg]
  rw [h1, h2, h3]

  rfl

/-- C6 counterexample: the Reconciler is a pure function of its two inputs,
so a second run against the same target configuration and the same on-chain
facet state returns the same list as the first; against an empty chain with
one target facet both runs are the same non-empty Add list. -/
theorem reconcile_same_inputs_not_empty :
    reconcile [⟨"A", 7, [17], 0⟩] [] = reconcile [⟨"A", 7, [17], 0⟩] [] ∧
    reconcile [⟨"A", 7, [17], 0⟩] [] ≠ [] :=
  ⟨rfl, by decide⟩

/-- Witness for C6 at a concrete one-facet configuration over a chain with
one orphaned selector, exercising Add and Remove cuts. -/
theorem reconcile_idempotent_witness :
    reconcile [⟨"A", 7, [17, 34], 1⟩]
      (applyOperations [(51, 9)] (reconcile [⟨"A", 7, [17, 34], 1⟩] [(51, 9)])) = [] :=
  reconcile_idempotent [⟨"A", 7, [17, 34], 1⟩] [(51, 9)] (by decide)

/-- Witness for C2 at concrete inputs where all four deploy problems occur
at once and all four messages are collected. -/
theorem validation_enumerates_all_problems_witness :
    deployValidateOptions ⟨"", "", none, none, none, none, some false, none⟩
        ⟨none, none, none, none, none, none⟩ =
      [deployMsgDiamondName, deployMsgNetworkName, msgPrivateKey, msgRpcUrlLegacy] ∧
    deployDiamondRun id none ⟨"", "", none, none, none, none, some false, none⟩
        ⟨none, none, none, none, none, none⟩ ⟨false, ⟨none, none, none, []⟩, true, []⟩ =
      { outcome := .validationExit
          [deployMsgDiamondName, deployMsgNetworkName, msgPrivateKey, msgRpcUrlLegacy]
        finalState := ⟨false, ⟨none, none, none, []⟩, true, []⟩
        usedConfig := none } := by
  have h := validation_enumerates_all_problems
    ⟨"", "", none, none, none, none, some false, none⟩
    ⟨"", "", none, none, none, none, some false, none, false, false⟩
    ⟨"", none, none, none, false⟩
    ⟨none, none, none, none, none, none⟩ id none
    ⟨false, ⟨none, none, none, []⟩, true, []⟩ ⟨none, []⟩
  refine ⟨?_, ?_⟩
  · rw [h.1]
    decide
  · have h4 := h.2.2.2.1 (by rw [h.1]; decide)
    rw [h4, h.1]
    decide

end Diamonds
